import Mathlib

set_option maxHeartbeats 1000000

namespace MCT

/-!  Shallow embedding of the quantization-parameter search core of the
model_compression_toolkit repository: the (method, error-method) dispatch
(quantization_params_fn_selection.py), the similarity metrics
(similarity_analyzer.py), the symmetric threshold selection
(symmetric_selection.py) and the per-node quantization-configuration
orchestration (set_node_quantization_config.py).  Numeric tensors are
lists of rationals; numpy floats are modelled by exact rationals, with
reals only where the source takes square roots. -/

/-- Modelled from the spec: quantization_config.py (defining the
QuantizationMethod enum) is not under src/.  The spec fixes the scheme tags
as power-of-two symmetric, symmetric, uniform, k-means clustering and
lookup-table clustering.  The extra `unknown` constructor represents an
unrecognized value reaching the dynamically-typed dispatch, which the
claims explicitly quantify over. -/
inductive QuantizationMethod where
  | POWER_OF_TWO
  | SYMMETRIC
  | UNIFORM
  | KMEANS
  | LUT_QUANTIZER
  | unknown (tag : String)
deriving DecidableEq

/-- Modelled from the spec: quantization_config.py (defining the
QuantizationErrorMethod enum) is not under src/.  The spec fixes the
error-method tags as no-clipping/min-max, MSE, MAE, Lp-norm and
KL-divergence; `unknown` represents an unrecognized value at dispatch. -/
inductive QuantizationErrorMethod where
  | NOCLIPPING
  | MSE
  | MAE
  | LP
  | KL
  | unknown (tag : String)
deriving DecidableEq

/-- Whether the method is one of the five recognized scheme tags. -/
def QuantizationMethod.recognized : QuantizationMethod → Bool
  | .unknown _ => false
  | _ => true

/-- Whether the error method is one of the five recognized tags. -/
def QuantizationErrorMethod.recognized : QuantizationErrorMethod → Bool
  | .unknown _ => false
  | _ => true

/-- Tags naming the parameter-search routines that the two dispatch
functions in quantization_params_fn_selection.py can return.  Each
constructor names the Python function object returned by the source. -/
inductive ParamsFn where
  | no_clipping_selection_min_max
  | mse_selection_histogram
  | mae_selection_histogram
  | lp_selection_histogram
  | kl_selection_histogram
  | symmetric_selection_histogram
  | uniform_selection_histogram
  | no_clipping_selection_tensor
  | mse_selection_tensor
  | mae_selection_tensor
  | kl_selection_tensor
  | lp_selection_tensor
  | symmetric_selection_tensor
  | uniform_selection_tensor
  | kmeans_tensor
  | lut_kmeans_tensor
deriving DecidableEq

/-- Embedding of get_activation_quantization_params_fn
(quantization_params_fn_selection.py, lines 29-68).  The Python returns a
callable or the value None (the `params_fn = None` arm of the inner
if-chain), and raises for an unrecognized quantization method; the
returned value is modelled as `Option ParamsFn` inside `Except`. -/
def get_activation_quantization_params_fn (activation_quantization_method : QuantizationMethod)
    (activation_error_method : QuantizationErrorMethod) : Except String (Option ParamsFn) :=
  match activation_quantization_method with
  | .POWER_OF_TWO =>
    Except.ok (match activation_error_method with
      | .NOCLIPPING => some ParamsFn.no_clipping_selection_min_max
      | .MSE => some ParamsFn.mse_selection_histogram
      | .MAE => some ParamsFn.mae_selection_histogram
      | .LP => some ParamsFn.lp_selection_histogram
      | .KL => some ParamsFn.kl_selection_histogram
      | .unknown _ => none)
  | .SYMMETRIC => Except.ok (some ParamsFn.symmetric_selection_histogram)
  | .UNIFORM => Except.ok (some ParamsFn.uniform_selection_histogram)
  | .KMEANS => Except.error ("No params function for the configuration of quantization method and quantization error method")
  | .LUT_QUANTIZER => Except.error ("No params function for the configuration of quantization method and quantization error method")
  | .unknown _ => Except.error ("No params function for the configuration of quantization method and quantization error method")

/-- Embedding of get_weights_quantization_params_fn
(quantization_params_fn_selection.py, lines 71-113), same conventions as
the activation variant. -/
def get_weights_quantization_params_fn (weights_quantization_method : QuantizationMethod)
    (weights_error_method : QuantizationErrorMethod) : Except String (Option ParamsFn) :=
  match weights_quantization_method with
  | .POWER_OF_TWO =>
    Except.ok (match weights_error_method with
      | .NOCLIPPING => some ParamsFn.no_clipping_selection_tensor
      | .MSE => some ParamsFn.mse_selection_tensor
      | .MAE => some ParamsFn.mae_selection_tensor
      | .KL => some ParamsFn.kl_selection_tensor
      | .LP => some ParamsFn.lp_selection_tensor
      | .unknown _ => none)
  | .SYMMETRIC => Except.ok (some ParamsFn.symmetric_selection_tensor)
  | .UNIFORM => Except.ok (some ParamsFn.uniform_selection_tensor)
  | .KMEANS => Except.ok (some ParamsFn.kmeans_tensor)
  | .LUT_QUANTIZER => Except.ok (some ParamsFn.lut_kmeans_tensor)
  | .unknown _ => Except.error ("No params function for the configuration of quantization method and quantization error method")

/-- C1 counterexample: with the recognized POWER_OF_TWO method but an
unrecognized error method, both dispatchers return None (a non-callable)
without raising any configuration error, contradicting the claim. -/
theorem C1_dispatch_counterexample :
    get_weights_quantization_params_fn QuantizationMethod.POWER_OF_TWO (QuantizationErrorMethod.unknown "bad") = Except.ok none ∧
    get_activation_quantization_params_fn QuantizationMethod.POWER_OF_TWO (QuantizationErrorMethod.unknown "bad") = Except.ok none := by
  exact ⟨rfl, rfl⟩

/-- C1 (amended): an unrecognized quantization method makes both
dispatchers raise a configuration error at dispatch time; every recognized
(method, error-method) pair yields a callable; but a recognized
POWER_OF_TWO method combined with an unrecognized error method makes both
dispatchers return None (a non-callable) without raising. -/
theorem C1_dispatch_amended (m : QuantizationMethod) (e : QuantizationErrorMethod) :
    (m.recognized = false →
      (∃ s, get_weights_quantization_params_fn m e = Except.error s) ∧
      (∃ s, get_activation_quantization_params_fn m e = Except.error s)) ∧
    (m.recognized = true → e.recognized = true →
      (∃ f, get_weights_quantization_params_fn m e = Except.ok (some f)) ∧
      ((∃ g, get_activation_quantization_params_fn m e = Except.ok (some g)) ∨
        (∃ s, get_activation_quantization_params_fn m e = Except.error s))) ∧
    (m = QuantizationMethod.POWER_OF_TWO → e.recognized = false →
      get_weights_quantization_params_fn m e = Except.ok none ∧
      get_activation_quantization_params_fn m e = Except.ok none) := by
  cases m <;> cases e <;>
    simp [get_weights_quantization_params_fn, get_activation_quantization_params_fn,
      QuantizationMethod.recognized, QuantizationErrorMethod.recognized]

/-- C1 witness: the amended dispatch theorem applied at the concrete
recognized pair (SYMMETRIC, MSE). -/
theorem C1_dispatch_witness :
    (∃ f, get_weights_quantization_params_fn QuantizationMethod.SYMMETRIC QuantizationErrorMethod.MSE = Except.ok (some f)) ∧
    ((∃ g, get_activation_quantization_params_fn QuantizationMethod.SYMMETRIC QuantizationErrorMethod.MSE = Except.ok (some g)) ∨
      (∃ s, get_activation_quantization_params_fn QuantizationMethod.SYMMETRIC QuantizationErrorMethod.MSE = Except.error s)) :=
  (C1_dispatch_amended QuantizationMethod.SYMMETRIC QuantizationErrorMethod.MSE).2.1 rfl rfl

/-- Numpy ndarray model for the similarity metrics: a shape together with
the flat (row-major) data, and the consistency invariant between them. -/
structure NpArray where
  shape : List Nat
  data : List ℚ
  hlen : data.length = shape.prod

/-- Embedding of validate_before_compute_similarity
(similarity_analyzer.py, lines 26-36): the shape-equality assertion run by
every metric before it computes anything (the isinstance checks are
enforced by the Lean type).  A failing assert is an error result. -/
def validate_before_compute_similarity (float_tensor fxp_tensor : NpArray) : Except String Unit :=
  if float_tensor.shape = fxp_tensor.shape then Except.ok ()
  else Except.error ("assert float_tensor.shape == fxp_tensor.shape")

/-- Mean of a list of rationals (np.mean); division by zero for the empty
list follows the Lean convention 0/0 = 0. -/
def list_mean (l : List ℚ) : ℚ := l.sum / (l.length : ℚ)

/-- Embedding of compute_mse (similarity_analyzer.py, lines 56-73). -/
def compute_mse (float_tensor fxp_tensor : NpArray) (norm : Bool) (norm_eps : ℚ) : Except String ℚ :=
  match validate_before_compute_similarity float_tensor fxp_tensor with
  | .error s => Except.error s
  | .ok _ =>
    let error := list_mean (List.zipWith (fun a b => (a - b) ^ 2) float_tensor.data fxp_tensor.data)
    Except.ok (if norm then error / (list_mean (float_tensor.data.map (fun a => a ^ 2)) + norm_eps) else error)

/-- Embedding of compute_mae (similarity_analyzer.py, lines 110-128). -/
def compute_mae (float_tensor fxp_tensor : NpArray) (norm : Bool) (norm_eps : ℚ) : Except String ℚ :=
  match validate_before_compute_similarity float_tensor fxp_tensor with
  | .error s => Except.error s
  | .ok _ =>
    let error := list_mean (List.zipWith (fun a b => |a - b|) float_tensor.data fxp_tensor.data)
    Except.ok (if norm then error / (list_mean (float_tensor.data.map (fun a => |a|)) + norm_eps) else error)

/-- Embedding of compute_lp_norm (similarity_analyzer.py, lines 162-182);
the exponent p is an int per the source signature. -/
def compute_lp_norm (float_tensor fxp_tensor : NpArray) (p : ℕ) (norm : Bool) (norm_eps : ℚ) : Except String ℚ :=
  match validate_before_compute_similarity float_tensor fxp_tensor with
  | .error s => Except.error s
  | .ok _ =>
    let error := list_mean (List.zipWith (fun a b => |a - b| ^ p) float_tensor.data fxp_tensor.data)
    Except.ok (if norm then error / (list_mean (float_tensor.data.map (fun a => |a| ^ p)) + norm_eps) else error)

/-- Embedding of tensor_norm (similarity_analyzer.py, lines 39-49): the
Lp norm of the flattened data, with a real exponent as in the source. -/
noncomputable def tensor_norm (x : NpArray) (p : ℝ) : ℝ :=
  ((x.data.map (fun (q : ℚ) => |(q : ℝ)| ^ p)).sum) ^ (1 / p)

/-- Real-valued list mean for the normalized metrics. -/
noncomputable def list_mean_real (l : List ℝ) : ℝ := l.sum / (l.length : ℝ)

/-- Embedding of compute_nmse (similarity_analyzer.py, lines 76-90). -/
noncomputable def compute_nmse (float_tensor fxp_tensor : NpArray) : Except String ℝ :=
  match validate_before_compute_similarity float_tensor fxp_tensor with
  | .error s => Except.error s
  | .ok _ =>
    let normalized_float_tensor := float_tensor.data.map (fun (q : ℚ) => (q : ℝ) / tensor_norm float_tensor 2)
    let normalized_fxp_tensor := fxp_tensor.data.map (fun (q : ℚ) => (q : ℝ) / tensor_norm fxp_tensor 2)
    Except.ok (list_mean_real (List.zipWith (fun a b => (a - b) ^ 2) normalized_float_tensor normalized_fxp_tensor))

/-- Embedding of compute_nmae (similarity_analyzer.py, lines 93-107). -/
noncomputable def compute_nmae (float_tensor fxp_tensor : NpArray) : Except String ℝ :=
  match validate_before_compute_similarity float_tensor fxp_tensor with
  | .error s => Except.error s
  | .ok _ =>
    let normalized_float_tensor := float_tensor.data.map (fun (q : ℚ) => (q : ℝ) / tensor_norm float_tensor 1)
    let normalized_fxp_tensor := fxp_tensor.data.map (fun (q : ℚ) => (q : ℝ) / tensor_norm fxp_tensor 1)
    Except.ok (list_mean_real (List.zipWith (fun a b => |a - b|) normalized_float_tensor normalized_fxp_tensor))

/-- Embedding of compute_cs (similarity_analyzer.py, lines 131-159):
validates, returns 1.0 when both tensors are all-zero, otherwise maps the
eps-regularized cosine similarity to (1 - cs) / 2. -/
noncomputable def compute_cs (float_tensor fxp_tensor : NpArray) (eps : ℚ) : Except String ℝ :=
  match validate_before_compute_similarity float_tensor fxp_tensor with
  | .error s => Except.error s
  | .ok _ =>
    if fxp_tensor.data.all (fun v => v == 0) && float_tensor.data.all (fun v => v == 0) then
      Except.ok 1
    else
      let float_norm := tensor_norm float_tensor 2
      let fxp_norm := tensor_norm fxp_tensor 2
      let cs := ((List.zipWith (fun (a : ℚ) (b : ℚ) => (a : ℝ) * (b : ℝ)) float_tensor.data fxp_tensor.data).sum) /
        (float_norm * fxp_norm + (eps : ℝ))
      Except.ok ((1 - cs) / 2)

/-- Sum of squared differences of a list with itself vanishes. -/
theorem zipWith_self_sq_sum_zero (l : List ℚ) :
    (List.zipWith (fun a b => (a - b) ^ 2) l l).sum = 0 := by
  induction l with
  | nil => simp
  | cons a t ih => simp [ih]

/-- Sum of absolute differences of a list with itself vanishes. -/
theorem zipWith_self_abs_sum_zero (l : List ℚ) :
    (List.zipWith (fun a b => |a - b|) l l).sum = 0 := by
  induction l with
  | nil => simp
  | cons a t ih => simp [ih]

/-- C7: for every numeric tensor x, compute_mse(x, x) returns 0 and
compute_mae(x, x) returns 0 with normalization disabled. -/
theorem C7_mse_mae_identity (x : NpArray) (norm_eps : ℚ) :
    compute_mse x x false norm_eps = Except.ok 0 ∧
    compute_mae x x false norm_eps = Except.ok 0 := by
  constructor
  · simp [compute_mse, validate_before_compute_similarity, list_mean,
      zipWith_self_sq_sum_zero]
  · simp [compute_mae, validate_before_compute_similarity, list_mean,
      zipWith_self_abs_sum_zero]

/-- C6: every one of the six similarity metrics rejects a shape mismatch
with an invalid-input error before computing any distance, and never
silently broadcasts. -/
theorem C6_shape_mismatch_rejected (x y : NpArray) (p : ℕ) (norm : Bool) (norm_eps eps : ℚ)
    (h : x.shape ≠ y.shape) :
    compute_mse x y norm norm_eps = Except.error ("assert float_tensor.shape == fxp_tensor.shape") ∧
    compute_mae x y norm norm_eps = Except.error ("assert float_tensor.shape == fxp_tensor.shape") ∧
    compute_cs x y eps = Except.error ("assert float_tensor.shape == fxp_tensor.shape") ∧
    compute_lp_norm x y p norm norm_eps = Except.error ("assert float_tensor.shape == fxp_tensor.shape") ∧
    compute_nmse x y = Except.error ("assert float_tensor.shape == fxp_tensor.shape") ∧
    compute_nmae x y = Except.error ("assert float_tensor.shape == fxp_tensor.shape") := by
  refine ⟨?_, ?_, ?_, ?_, ?_, ?_⟩ <;>
    simp [compute_mse, compute_mae, compute_cs, compute_lp_norm, compute_nmse, compute_nmae,
      validate_before_compute_similarity, h]

/-- C6 witness: the shape-mismatch rejection applied to two concrete
arrays of different shapes. -/
theorem C6_shape_mismatch_witness :
    compute_mse ⟨[1], [0], by simp⟩ ⟨[2], [0, 0], by simp⟩ false 0 =
      Except.error ("assert float_tensor.shape == fxp_tensor.shape") :=
  (C6_shape_mismatch_rejected ⟨[1], [0], by simp⟩ ⟨[2], [0, 0], by simp⟩ 2 false 0 0
    (by decide)).1

/-- C5: when both compared tensors are identically zero, compute_cs
returns exactly 1.0 (the maximal-similarity sentinel), not 0.0. -/
theorem C5_cs_all_zero (x y : NpArray) (eps : ℚ) (hsh : x.shape = y.shape)
    (hx : ∀ v ∈ x.data, v = 0) (hy : ∀ v ∈ y.data, v = 0) :
    compute_cs x y eps = Except.ok 1 := by
  have hx' : x.data.all (fun v => v == 0) = true := by
    rw [List.all_eq_true]; intro v hv; exact decide_eq_true (by exact_mod_cast hx v hv)
  have hy' : y.data.all (fun v => v == 0) = true := by
    rw [List.all_eq_true]; intro v hv; exact decide_eq_true (by exact_mod_cast hy v hv)
  simp [compute_cs, validate_before_compute_similarity, hsh, hx', hy']

/-- C5 witness: compute_cs on two concrete all-zero tensors of equal
shape. -/
theorem C5_cs_all_zero_witness :
    compute_cs ⟨[2], [0, 0], by simp⟩ ⟨[2], [0, 0], by simp⟩ (1 / 100000000) = Except.ok 1 :=
  C5_cs_all_zero ⟨[2], [0, 0], by simp⟩ ⟨[2], [0, 0], by simp⟩ (1 / 100000000) rfl
    (by decide) (by decide)

/-- Bridge a mapped list sum to a Finset.range sum over positional
reads. -/
theorem list_map_sum_eq_range (f : ℚ → ℝ) (xs : List ℚ) :
    (xs.map f).sum = ∑ i ∈ Finset.range xs.length, f (xs.getD i 0) := by
  induction xs with
  | nil => simp
  | cons a t ih =>
    rw [List.map_cons, List.sum_cons, List.length_cons, Finset.sum_range_succ']
    simp [List.getD_cons_succ, List.getD_cons_zero, ih, add_comm]

/-- Bridge a zipped product sum to a Finset.range sum over positional
reads, for equal-length lists. -/
theorem list_zipWith_sum_eq_range (f : ℚ → ℚ → ℝ) (xs ys : List ℚ) (h : ys.length = xs.length) :
    (List.zipWith f xs ys).sum = ∑ i ∈ Finset.range xs.length, f (xs.getD i 0) (ys.getD i 0) := by
  induction xs generalizing ys with
  | nil => simp
  | cons a t ih =>
    cases ys with
    | nil => simp at h
    | cons b u =>
      rw [List.zipWith_cons_cons, List.sum_cons, List.length_cons, Finset.sum_range_succ']
      have hu : u.length = t.length := by simpa using h
      simp [List.getD_cons_succ, List.getD_cons_zero, ih u hu, add_comm]

/-- Cauchy-Schwarz inequality for the list sums used by compute_cs. -/
theorem list_cauchy_schwarz (xs ys : List ℚ) (h : ys.length = xs.length) :
    ((List.zipWith (fun (a : ℚ) (b : ℚ) => (a : ℝ) * (b : ℝ)) xs ys).sum) ^ 2 ≤
      ((xs.map (fun (q : ℚ) => ((q : ℝ)) ^ 2)).sum) * ((ys.map (fun (q : ℚ) => ((q : ℝ)) ^ 2)).sum) := by
  rw [list_zipWith_sum_eq_range _ xs ys h, list_map_sum_eq_range, list_map_sum_eq_range, h]
  exact Finset.sum_mul_sq_le_sq_mul_sq (Finset.range xs.length)
    (fun i => ((xs.getD i 0 : ℚ) : ℝ)) (fun i => ((ys.getD i 0 : ℚ) : ℝ))

/-- Sum of squares of the casts of a rational list is non-negative. -/
theorem sum_sq_nonneg (l : List ℚ) : 0 ≤ (l.map (fun (q : ℚ) => ((q : ℝ)) ^ 2)).sum := by
  apply List.sum_nonneg
  intro a ha
  obtain ⟨q, _, rfl⟩ := List.mem_map.1 ha
  positivity

/-- Sum of squares of the casts is positive when some entry is nonzero. -/
theorem sum_sq_pos (l : List ℚ) (h : ∃ v ∈ l, v ≠ 0) :
    0 < (l.map (fun (q : ℚ) => ((q : ℝ)) ^ 2)).sum := by
  obtain ⟨v, hv, hvne⟩ := h
  induction l with
  | nil => simp at hv
  | cons a t ih =>
    rw [List.map_cons, List.sum_cons]
    rcases List.mem_cons.1 hv with rfl | hvt
    · have h1 : (0 : ℝ) < (v : ℝ) ^ 2 := by
        have : ((v : ℝ)) ≠ 0 := by exact_mod_cast hvne
        positivity
      linarith [sum_sq_nonneg t]
    · have := ih hvt
      have h2 : (0 : ℝ) ≤ (a : ℝ) ^ 2 := sq_nonneg _
      linarith

/-- The L2 instance of tensor_norm is the square root of the sum of
squares. -/
theorem tensor_norm_two (x : NpArray) :
    tensor_norm x 2 = Real.sqrt ((x.data.map (fun (q : ℚ) => ((q : ℝ)) ^ 2)).sum) := by
  have habs : ∀ q : ℚ, |(q : ℝ)| ^ (2 : ℝ) = ((q : ℝ)) ^ 2 := by
    intro q
    rw [show (2 : ℝ) = ((2 : ℕ) : ℝ) by norm_num, Real.rpow_natCast, sq_abs]
  simp only [tensor_norm, habs, Real.sqrt_eq_rpow]

/-- Shared evaluation of compute_cs on equal-shaped inputs: it succeeds
and the result lies in the half-open interval (0, 1]. -/
theorem compute_cs_ok_bounds (x y : NpArray) (eps : ℚ) (heps : 0 < eps)
    (hsh : x.shape = y.shape) :
    ∃ r, compute_cs x y eps = Except.ok r ∧ 0 < r ∧ r ≤ 1 := by
  have hv : validate_before_compute_similarity x y = Except.ok () := by
    simp [validate_before_compute_similarity, hsh]
  have hlen : y.data.length = x.data.length := by
    rw [x.hlen, y.hlen, hsh]
  by_cases hg : (y.data.all (fun v => v == 0) && x.data.all (fun v => v == 0)) = true
  · refine ⟨1, ?_, by norm_num, le_refl 1⟩
    simp [compute_cs, hv, hg]
  · set N : ℝ := (List.zipWith (fun (a : ℚ) (b : ℚ) => (a : ℝ) * (b : ℝ)) x.data y.data).sum with hN
    set A : ℝ := (x.data.map (fun (q : ℚ) => ((q : ℝ)) ^ 2)).sum with hA
    set B : ℝ := (y.data.map (fun (q : ℚ) => ((q : ℝ)) ^ 2)).sum with hB
    have hA0 : 0 ≤ A := sum_sq_nonneg _
    have hB0 : 0 ≤ B := sum_sq_nonneg _
    have hcs : N ^ 2 ≤ A * B := list_cauchy_schwarz x.data y.data hlen
    have habs : |N| ≤ Real.sqrt A * Real.sqrt B := by
      calc |N| = Real.sqrt (N ^ 2) := (Real.sqrt_sq_eq_abs N).symm
        _ ≤ Real.sqrt (A * B) := Real.sqrt_le_sqrt hcs
        _ = Real.sqrt A * Real.sqrt B := Real.sqrt_mul hA0 B
    have hepsR : (0 : ℝ) < (eps : ℚ) := by exact_mod_cast heps
    have hD0 : (0 : ℝ) < Real.sqrt A * Real.sqrt B + (eps : ℚ) := by
      have := mul_nonneg (Real.sqrt_nonneg A) (Real.sqrt_nonneg B)
      linarith
    have hcs_lt : |N / (Real.sqrt A * Real.sqrt B + (eps : ℚ))| < 1 := by
      rw [abs_div, abs_of_pos hD0, div_lt_one hD0]
      linarith
    have hcs_bounds := abs_lt.1 hcs_lt
    refine ⟨(1 - N / (Real.sqrt A * Real.sqrt B + (eps : ℚ))) / 2, ?_, by linarith, by linarith⟩
    simp only [compute_cs, hv, hg, Bool.false_eq_true, if_false]
    rw [tensor_norm_two x, tensor_norm_two y]

/-- C4 counterexample: for the concrete nonzero tensor x = [1] and the
positive scalar c = 1, compute_cs(x, c*x) is not 0 (the eps term in the
denominator keeps the regularized cosine similarity strictly below 1). -/
theorem C4_cs_counterexample :
    compute_cs ⟨[1], [1], by simp⟩ ⟨[1], [1], by simp⟩ (1 / 100000000) ≠ Except.ok 0 := by
  obtain ⟨r, hr, hpos, _⟩ :=
    compute_cs_ok_bounds ⟨[1], [1], by simp⟩ ⟨[1], [1], by simp⟩ (1 / 100000000)
      (by norm_num) rfl
  intro h
  rw [h] at hr
  have : (0 : ℝ) = r := by
    have := Except.ok.inj hr
    exact this
  exact absurd hpos (by rw [← this]; exact lt_irrefl 0)

/-- Sum of the zipped products of a list with its scalar multiple. -/
theorem zipWith_mul_scalar (c : ℚ) (l : List ℚ) :
    (List.zipWith (fun (a : ℚ) (b : ℚ) => (a : ℝ) * (b : ℝ)) l (l.map (fun v => c * v))).sum =
      (c : ℝ) * ((l.map (fun (q : ℚ) => ((q : ℝ)) ^ 2)).sum) := by
  induction l with
  | nil => simp
  | cons a t ih =>
    rw [List.map_cons, List.zipWith_cons_cons, List.sum_cons, List.map_cons, List.sum_cons, ih]
    push_cast
    ring

/-- Sum of squares of a scalar multiple of a list. -/
theorem sum_sq_scalar (c : ℚ) (l : List ℚ) :
    ((l.map (fun v => c * v)).map (fun (q : ℚ) => ((q : ℝ)) ^ 2)).sum =
      ((c : ℝ)) ^ 2 * ((l.map (fun (q : ℚ) => ((q : ℝ)) ^ 2)).sum) := by
  induction l with
  | nil => simp
  | cons a t ih =>
    rw [List.map_cons, List.map_cons, List.sum_cons, List.map_cons, List.sum_cons, ih]
    push_cast
    ring

/-- Shared exact evaluation of compute_cs on a pair (x, c*x) with c a
positive scalar and x nonzero: the result is eps / (2*(c*S + eps)) where
S is the sum of squares of x. -/
theorem compute_cs_scalar_multiple (x y : NpArray) (c eps : ℚ) (heps : 0 < eps)
    (hsh : x.shape = y.shape) (hc : 0 < c)
    (hy : y.data = x.data.map (fun v => c * v)) (hx : ∃ v ∈ x.data, v ≠ 0) :
    compute_cs x y eps =
      Except.ok ((eps : ℚ) /
        (2 * ((c : ℝ) * ((x.data.map (fun (q : ℚ) => ((q : ℝ)) ^ 2)).sum) + (eps : ℚ)))) := by
  have hv : validate_before_compute_similarity x y = Except.ok () := by
    simp [validate_before_compute_similarity, hsh]
  obtain ⟨v, hvmem, hvne⟩ := hx
  have hyall : y.data.all (fun v => v == 0) = false := by
    rw [List.all_eq_false]
    refine ⟨c * v, ?_, ?_⟩
    · rw [hy]; exact List.mem_map_of_mem _ hvmem
    · simp only [beq_iff_eq]
      exact fun hcv => hvne (by
        have := mul_eq_zero.1 hcv
        rcases this with h1 | h2
        · exact absurd h1 (ne_of_gt hc)
        · exact h2)
  have hg : (y.data.all (fun v => v == 0) && x.data.all (fun v => v == 0)) = false := by
    rw [hyall]; rfl
  set S : ℝ := (x.data.map (fun (q : ℚ) => ((q : ℝ)) ^ 2)).sum with hS
  have hS0 : 0 < S := sum_sq_pos x.data ⟨v, hvmem, hvne⟩
  have hcR : (0 : ℝ) < (c : ℚ) := by exact_mod_cast hc
  have hepsR : (0 : ℝ) < (eps : ℚ) := by exact_mod_cast heps
  have hnormx : tensor_norm x 2 = Real.sqrt S := tensor_norm_two x
  have hnormy : tensor_norm y 2 = (c : ℝ) * Real.sqrt S := by
    rw [tensor_norm_two, hy, sum_sq_scalar, Real.sqrt_mul (sq_nonneg _), Real.sqrt_sq hcR.le]
  have hNval : (List.zipWith (fun (a : ℚ) (b : ℚ) => (a : ℝ) * (b : ℝ)) x.data y.data).sum = (c : ℝ) * S := by
    rw [hy]; exact zipWith_mul_scalar c x.data
  have hsqS : Real.sqrt S * ((c : ℝ) * Real.sqrt S) = (c : ℝ) * S := by
    have h1 : Real.sqrt S * Real.sqrt S = S := Real.mul_self_sqrt hS0.le
    calc Real.sqrt S * ((c : ℝ) * Real.sqrt S) = (Real.sqrt S * Real.sqrt S) * (c : ℝ) := by ring
      _ = (c : ℝ) * S := by rw [h1]; ring
  have hDpos : (0 : ℝ) < (c : ℝ) * S + (eps : ℚ) := by positivity
  simp only [compute_cs, hv, hg, Bool.false_eq_true, if_false]
  congr 1
  rw [hnormx, hnormy, hNval, hsqS]
  field_simp
  ring_nf
  exact Or.inl trivial

/-- C4 (amended): compute_cs always returns a value in the closed
interval [0, 1]; but for a pair (x, c*x) with c a strictly positive
scalar and x nonzero it returns eps / (2*(c*S + eps)) with S the sum of
squares of x — a strictly positive value, not exactly 0 (equality to 0
fails because of the eps regularizer in the denominator). -/
theorem C4_cs_range_and_scalar_multiple (x y : NpArray) (eps : ℚ) (heps : 0 < eps)
    (hsh : x.shape = y.shape) :
    (∃ r, compute_cs x y eps = Except.ok r ∧ 0 ≤ r ∧ r ≤ 1) ∧
    (∀ c : ℚ, 0 < c → y.data = x.data.map (fun v => c * v) → (∃ v ∈ x.data, v ≠ 0) →
      compute_cs x y eps =
        Except.ok ((eps : ℚ) /
          (2 * ((c : ℝ) * ((x.data.map (fun (q : ℚ) => ((q : ℝ)) ^ 2)).sum) + (eps : ℚ)))) ∧
      0 < (eps : ℚ) /
        (2 * ((c : ℝ) * ((x.data.map (fun (q : ℚ) => ((q : ℝ)) ^ 2)).sum) + (eps : ℚ)))) := by
  constructor
  · obtain ⟨r, hr, h0, h1⟩ := compute_cs_ok_bounds x y eps heps hsh
    exact ⟨r, hr, h0.le, h1⟩
  · intro c hc hy hx
    refine ⟨compute_cs_scalar_multiple x y c eps heps hsh hc hy hx, ?_⟩
    have hS0 : 0 < (x.data.map (fun (q : ℚ) => ((q : ℝ)) ^ 2)).sum := sum_sq_pos x.data hx
    have hcR : (0 : ℝ) < (c : ℚ) := by exact_mod_cast hc
    have hepsR : (0 : ℝ) < (eps : ℚ) := by exact_mod_cast heps
    positivity

/-- C4 witness: the amended theorem applied to the concrete pair
x = [1], y = 2*x = [2] with the default eps. -/
theorem C4_cs_witness :
    (∃ r, compute_cs ⟨[1], [1], by simp⟩ ⟨[1], [2], by simp⟩ (1 / 100000000) = Except.ok r ∧
      0 ≤ r ∧ r ≤ 1) ∧
    (compute_cs ⟨[1], [1], by simp⟩ ⟨[1], [2], by simp⟩ (1 / 100000000) =
        Except.ok (((1 / 100000000 : ℚ) : ℝ) /
          (2 * ((((2 : ℚ)) : ℝ) * ((([1] : List ℚ).map (fun (q : ℚ) => ((q : ℝ)) ^ 2)).sum) +
            ((1 / 100000000 : ℚ) : ℝ)))) ∧
      0 < ((1 / 100000000 : ℚ) : ℝ) /
        (2 * ((((2 : ℚ)) : ℝ) * ((([1] : List ℚ).map (fun (q : ℚ) => ((q : ℝ)) ^ 2)).sum) +
          ((1 / 100000000 : ℚ) : ℝ)))) := by
  have h := C4_cs_range_and_scalar_multiple ⟨[1], [1], by simp⟩ ⟨[1], [2], by simp⟩
    (1 / 100000000) (by norm_num) rfl
  exact ⟨h.1, h.2 2 (by norm_num) (by norm_num) ⟨1, by simp, by norm_num⟩⟩

/-- Value stored under the THRESHOLD key of the result dict of a
symmetric parameter search: a scalar, or one threshold per channel. -/
inductive QParamValue where
  | scalar (v : ℚ)
  | vector (vs : List ℚ)
deriving DecidableEq

/-- Result dict of a symmetric selection: the {THRESHOLD: res} mapping. -/
structure QParams where
  threshold : QParamValue
deriving DecidableEq

/-- Maximum of a list of rationals with identity 0 (np.max on the
non-negative, absolute-valued arrays all callers pass). -/
def listMax (l : List ℚ) : ℚ := l.foldr max 0

/-- Embedding of `signed = np.any(tensor_data < 0)`
(symmetric_selection.py, line 65): the signedness decision, computed once
from the whole tensor.  The ndarray is modelled channel-major, as a list
of channels. -/
def tensor_is_signed (tensor_data : List (List ℚ)) : Bool :=
  tensor_data.flatten.any (fun x => decide (x < 0))

/-- Embedding of `signed = np.any(bins < 0)` (symmetric_selection.py,
line 156): signedness of a histogram, decided from all bin edges. -/
def histogram_signed (bins : List ℚ) : Bool :=
  bins.any (fun x => decide (x < 0))

/-- Embedding of `unsigned_tensor_data = np.abs(tensor_data)`
(symmetric_selection.py, line 66). -/
def tensor_abs (t : List (List ℚ)) : List (List ℚ) :=
  t.map (List.map (fun x => |x|))

/-- Modelled from the spec: get_tensor_max (quantizers_helpers.py) is not
under src/; per the spec the no-clipping reduction is the raw max.  This
is the per_channel=False branch: a global np.max over the (already
absolute-valued, hence non-negative) data. -/
def get_tensor_max_flat (unsigned_data : List (List ℚ)) : ℚ :=
  listMax unsigned_data.flatten

/-- Modelled from the spec: the per_channel=True branch of get_tensor_max
(quantizers_helpers.py, not under src/): one np.max per output channel. -/
def get_tensor_max_per_channel (unsigned_data : List (List ℚ)) : List ℚ :=
  unsigned_data.map listMax

/-- Embedding of get_init_threshold (symmetric_selection.py, lines
265-282), scalar branch (per_channel=False): `max(min_threshold,
tensor_max)`. -/
def get_init_threshold (min_threshold tensor_max : ℚ) : ℚ :=
  max min_threshold tensor_max

/-- Embedding of get_init_threshold (symmetric_selection.py, lines
278-281), per-channel branch: entries below min_threshold are clamped to
min_threshold. -/
def get_init_threshold_per_channel (min_threshold : ℚ) (tensor_max : List ℚ) : List ℚ :=
  tensor_max.map (fun m => if m < min_threshold then min_threshold else m)

/-- Modelled from the spec: get_threshold_bounds (quantizers_helpers.py)
is not under src/; the spec fixes the search bounds as [min_threshold,
4 x initial guess]. -/
def get_threshold_bounds (min_threshold init_threshold : ℚ) : ℚ × ℚ :=
  (min_threshold, 4 * init_threshold)

/-- Rounding to the nearest integer (np.round, half upward here; the tie
direction is irrelevant to every claim below). -/
def rnd (q : ℚ) : ℤ := ⌊q + 1 / 2⌋

/-- Modelled from the spec: quantize_tensor (quantizers_helpers.py) is
not under src/.  Symmetric uniform quantization onto a grid of 2^n_bits
levels bounded by the threshold: signed grids span
[-2^(n-1), 2^(n-1)-1] steps of threshold/2^(n-1), unsigned grids span
[0, 2^n - 1] steps of threshold/2^n. -/
def quantize_tensor (data : List ℚ) (threshold : ℚ) (n_bits : ℕ) (signed : Bool) : List ℚ :=
  if signed then
    let scale := threshold / ((2 : ℚ) ^ (n_bits - 1))
    data.map (fun x => scale * ((max (-((2 : ℤ) ^ (n_bits - 1))) (min ((2 : ℤ) ^ (n_bits - 1) - 1) (rnd (x / scale))) : ℤ) : ℚ))
  else
    let scale := threshold / ((2 : ℚ) ^ n_bits)
    data.map (fun x => scale * ((max 0 (min ((2 : ℤ) ^ n_bits - 1) (rnd (x / scale))) : ℤ) : ℚ))

/-- Result object of a scipy optimize.minimize call; the source reads its
`x` attribute (the optimized threshold). -/
structure OptimizeResult where
  x : ℚ
deriving DecidableEq

/-- Finite candidate grid over the search interval, seeded with the
initial guess. -/
def grid_candidates (bounds : ℚ × ℚ) (x0 : ℚ) : List ℚ :=
  x0 :: (List.range 17).map (fun k => bounds.1 + (bounds.2 - bounds.1) * (k : ℚ) / 16)

/-- First-biased argmin of an objective over a candidate list. -/
def argmin_by (f : ℚ → ℚ) : List ℚ → ℚ → ℚ
  | [], best => best
  | c :: rest, best => argmin_by f rest (if f c < f best then c else best)

/-- Modelled from the spec: qparams_tensor_minimization
(qparams_search.py) is not under src/.  Per the spec it is a bounded
derivative-free 1-D minimization whose objective re-quantizes the tensor
at each candidate threshold and recomputes the error metric; embedded as
a deterministic finite candidate search. -/
def qparams_tensor_minimization (x : List ℚ) (x0 : ℚ)
    (error_function : List ℚ → List ℚ → ℚ → ℚ) (quant_function : ℚ → List ℚ)
    (bounds : ℚ × ℚ) : OptimizeResult :=
  ⟨argmin_by (fun t => error_function x (quant_function t) t) (grid_candidates bounds x0) x0⟩

/-- Modelled from the spec: scipy optimize.minimize with Nelder-Mead on a
scalar objective (used by the non-per-channel KL branch), embedded as the
same deterministic finite candidate search. -/
def optimize_minimize (f : ℚ → ℚ) (x0 : ℚ) (bounds : ℚ × ℚ) : OptimizeResult :=
  ⟨argmin_by f (grid_candidates bounds x0) x0⟩

/-- Modelled from the spec: symmetric_qparams_selection_per_channel_search
(qparams_search.py) is not under src/.  Per the spec the same 1-D search
is independently repeated per output channel, and channels whose maximum
is below the minimum-threshold floor are clamped to that floor rather
than optimized. -/
def symmetric_qparams_selection_per_channel_search (tensor_data : List (List ℚ))
    (tensor_max : List ℚ) (channel_axis : ℕ)
    (search_function : List ℚ → ℚ → ℚ × ℚ → OptimizeResult)
    (min_threshold : ℚ) : List ℚ :=
  List.zipWith
    (fun ch m =>
      if m < min_threshold then min_threshold
      else (search_function ch m (get_threshold_bounds min_threshold m)).x)
    tensor_data tensor_max

/-- Modelled from the spec: _kl_error_function (kl_selection.py) is not
under src/.  The spec objective is the KL divergence between the actual
and quantized empirical distributions, which involves transcendental
logarithms and has no exact rational counterpart; since no claim depends
on this objective value (only on the call structure around it), it is
embedded as a rational clipping-loss surrogate over the same range. -/
def kl_error_function (x : List ℚ) (range_min range_max : ℚ) (n_bits : ℕ) : ℚ :=
  (x.map (fun v => (v - max range_min (min range_max v)) ^ 2)).sum

/-- NpArray view of a flat channel tensor, used when the threshold search
feeds data to the similarity metrics. -/
def mkArr (l : List ℚ) : NpArray := ⟨[l.length], l, by simp⟩

/-- Value of a metric call that has already passed validation (the search
always compares equal-shaped tensors). -/
def qVal : Except String ℚ → ℚ
  | .ok v => v
  | .error _ => 0

/-- Embedding of get_threshold_selection_tensor_error_function
(symmetric_selection.py, lines 220-239): a dict from the error-method tag
to a (tensor, quantized tensor, threshold) objective; a missing key is
None (the Python raises KeyError). -/
def get_threshold_selection_tensor_error_function
    (quant_error_method : QuantizationErrorMethod) (p : ℕ) (norm : Bool) :
    Option (List ℚ → List ℚ → ℚ → ℚ) :=
  match quant_error_method with
  | .MSE => some (fun x y _t => qVal (compute_mse (mkArr x) (mkArr y) norm (1 / 100000000)))
  | .MAE => some (fun x y _t => qVal (compute_mae (mkArr x) (mkArr y) norm (1 / 100000000)))
  | .LP => some (fun x y _t => qVal (compute_lp_norm (mkArr x) (mkArr y) p norm (1 / 100000000)))
  | _ => none

/-- Embedding of symmetric_selection_tensor (symmetric_selection.py,
lines 39-123).  The signedness flag is computed once (line 65) and every
per-channel quantize call closes over it; the tensor is modelled
channel-major, so the channel_axis argument is kept only for signature
fidelity.  The unreachable KeyError of the source dict lookup is an
error result. -/
def symmetric_selection_tensor (tensor_data : List (List ℚ)) (p : ℕ) (n_bits : ℕ)
    (per_channel : Bool) (channel_axis : ℕ) (n_iter : ℕ) (min_threshold : ℚ)
    (quant_error_method : QuantizationErrorMethod) : Except String QParams :=
  let signed := tensor_is_signed tensor_data
  let unsigned_tensor_data := tensor_abs tensor_data
  if quant_error_method = QuantizationErrorMethod.NOCLIPPING then
    if per_channel then
      Except.ok ⟨QParamValue.vector (get_init_threshold_per_channel min_threshold
        (get_tensor_max_per_channel unsigned_tensor_data))⟩
    else
      Except.ok ⟨QParamValue.scalar (get_init_threshold min_threshold
        (get_tensor_max_flat unsigned_tensor_data))⟩
  else if quant_error_method = QuantizationErrorMethod.KL then
    if per_channel then
      Except.ok ⟨QParamValue.vector (symmetric_qparams_selection_per_channel_search tensor_data
        (get_tensor_max_per_channel unsigned_tensor_data) channel_axis
        (fun x x0 bounds => qparams_tensor_minimization x x0
          (fun a _y threshold => kl_error_function a (-threshold) threshold n_bits)
          (fun threshold => quantize_tensor x threshold n_bits signed) bounds)
        min_threshold)⟩
    else
      let init_threshold := get_init_threshold min_threshold (get_tensor_max_flat unsigned_tensor_data)
      Except.ok ⟨QParamValue.scalar (optimize_minimize
        (fun threshold => kl_error_function tensor_data.flatten (-threshold) threshold n_bits)
        init_threshold (get_threshold_bounds min_threshold init_threshold)).x⟩
  else
    match get_threshold_selection_tensor_error_function quant_error_method p false with
    | none => Except.error ("KeyError")
    | some error_function =>
      if per_channel then
        Except.ok ⟨QParamValue.vector (symmetric_qparams_selection_per_channel_search tensor_data
          (get_tensor_max_per_channel unsigned_tensor_data) channel_axis
          (fun x x0 bounds => qparams_tensor_minimization x x0 error_function
            (fun threshold => quantize_tensor x threshold n_bits signed) bounds)
          min_threshold)⟩
      else
        let init_threshold := get_init_threshold min_threshold (get_tensor_max_flat unsigned_tensor_data)
        Except.ok ⟨QParamValue.scalar (qparams_tensor_minimization tensor_data.flatten init_threshold
          error_function
          (fun threshold => quantize_tensor tensor_data.flatten threshold n_bits signed)
          (get_threshold_bounds min_threshold init_threshold)).x⟩

/-- Embedding of the numpy boolean-mask selection
`np.abs(bins)[1:][counts > 0]` used by symmetric_selection_histogram:
keep the values whose aligned count is positive. -/
def select_positive_counts (vals : List ℚ) (counts : List ℤ) : List ℚ :=
  (List.zip vals counts).filterMap (fun bc => if 0 < bc.2 then some bc.1 else none)

/-- Histogram error objective shape: (quantized bins, quantized counts,
bins, counts, threshold, range). -/
abbrev HistErrorFn : Type :=
  List ℚ → List ℤ → List ℚ → List ℤ → ℚ → ℚ × ℚ → ℚ

/-- Modelled from the spec: _mse_error_histogram (mse_selection.py) is
not under src/; per the spec the objective recomputes the error metric
between the histogram and its quantization, here count-weighted squared
differences of the bin edges. -/
def mse_error_histogram (q_bins : List ℚ) (q_count : List ℤ) (bins : List ℚ) (counts : List ℤ) : ℚ :=
  (List.zipWith (fun d c => (c : ℚ) * d)
    (List.zipWith (fun qb b => (qb - b) ^ 2) q_bins bins) counts).sum

/-- Modelled from the spec: _mae_error_histogram (mae_selection.py) is
not under src/; count-weighted absolute differences of the bin edges. -/
def mae_error_histogram (q_bins : List ℚ) (q_count : List ℤ) (bins : List ℚ) (counts : List ℤ) : ℚ :=
  (List.zipWith (fun d c => (c : ℚ) * d)
    (List.zipWith (fun qb b => |qb - b|) q_bins bins) counts).sum

/-- Modelled from the spec: _lp_error_histogram (lp_selection.py) is not
under src/; count-weighted p-th powers of absolute differences. -/
def lp_error_histogram (q_bins : List ℚ) (q_count : List ℤ) (bins : List ℚ) (counts : List ℤ) (p : ℕ) : ℚ :=
  (List.zipWith (fun d c => (c : ℚ) * d)
    (List.zipWith (fun qb b => |qb - b| ^ p) q_bins bins) counts).sum

/-- Modelled from the spec: _kl_error_histogram (kl_selection.py) is not
under src/.  The KL objective between empirical distributions involves
transcendental logarithms; since no claim depends on its value, it is
embedded as the same count-weighted quadratic surrogate. -/
def kl_error_histogram : HistErrorFn :=
  fun q_bins q_count bins counts _threshold _range =>
    mse_error_histogram q_bins q_count bins counts

/-- Embedding of get_threshold_selection_histogram_error_function
(symmetric_selection.py, lines 242-262): the dict from the error-method
tag to the histogram objective; a missing key is None (Python raises
KeyError). -/
def get_threshold_selection_histogram_error_function
    (quant_error_method : QuantizationErrorMethod) (p : ℕ) : Option HistErrorFn :=
  match quant_error_method with
  | .MSE => some (fun q_bins q_count bins counts _threshold _range =>
      mse_error_histogram q_bins q_count bins counts)
  | .MAE => some (fun q_bins q_count bins counts _threshold _range =>
      mae_error_histogram q_bins q_count bins counts)
  | .LP => some (fun q_bins q_count bins counts _threshold _range =>
      lp_error_histogram q_bins q_count bins counts p)
  | _ => none

/-- Modelled from the spec: qparams_histogram_minimization
(qparams_search.py) is not under src/; a bounded derivative-free 1-D
minimization of the histogram objective, seeded with the no-clipping
maximum, embedded as a deterministic finite candidate search. -/
def qparams_histogram_minimization (bins : List ℚ) (tensor_max : ℚ) (counts : List ℤ)
    (error_function : HistErrorFn) (quant_function : ℚ → List ℚ)
    (bounds : ℚ × ℚ) : OptimizeResult :=
  ⟨argmin_by (fun t => error_function (quant_function t) counts bins counts t bounds)
    (grid_candidates bounds tensor_max) tensor_max⟩

/-- Modelled from the spec: kl_symmetric_qparams_histogram_minimization
(qparams_search.py) is not under src/; the KL variant quantizes the bins
internally with the provided signedness flag. -/
def kl_symmetric_qparams_histogram_minimization (bins : List ℚ) (tensor_max : ℚ)
    (counts : List ℤ) (n_bits : ℕ) (signed : Bool) (error_function : HistErrorFn)
    (bounds : ℚ × ℚ) : OptimizeResult :=
  ⟨argmin_by (fun t => error_function (quantize_tensor bins t n_bits signed) counts bins counts t bounds)
    (grid_candidates bounds tensor_max) tensor_max⟩

/-- Embedding of symmetric_selection_histogram (symmetric_selection.py,
lines 126-187): the histogram maximum excludes the first bin edge and
edges with zero count, signedness is decided once from all bin edges, and
the method dispatch mirrors the source. -/
def symmetric_selection_histogram (bins : List ℚ) (counts : List ℤ) (p : ℕ) (n_bits : ℕ)
    (min_value max_value : ℚ) (constrained : Bool) (n_iter : ℕ) (min_threshold : ℚ)
    (quant_error_method : QuantizationErrorMethod) : Except String QParams :=
  let tensor_max := listMax (select_positive_counts ((bins.map (fun x => |x|)).drop 1) counts)
  let signed := histogram_signed bins
  if quant_error_method = QuantizationErrorMethod.NOCLIPPING then
    Except.ok ⟨QParamValue.scalar (get_init_threshold min_threshold tensor_max)⟩
  else if quant_error_method = QuantizationErrorMethod.KL then
    let init_threshold := get_init_threshold min_threshold tensor_max
    Except.ok ⟨QParamValue.scalar (kl_symmetric_qparams_histogram_minimization bins tensor_max
      counts n_bits signed kl_error_histogram
      (get_threshold_bounds min_threshold init_threshold)).x⟩
  else
    match get_threshold_selection_histogram_error_function quant_error_method p with
    | none => Except.error ("KeyError")
    | some error_function =>
      let init_threshold := get_init_threshold min_threshold tensor_max
      Except.ok ⟨QParamValue.scalar (qparams_histogram_minimization bins tensor_max counts
        error_function
        (fun threshold => quantize_tensor bins threshold n_bits signed)
        (get_threshold_bounds min_threshold init_threshold)).x⟩

/-- Embedding of symmetric_no_clipping_selection_min_max
(symmetric_selection.py, lines 190-217): builds a two-edge histogram from
(min_value, max_value) with a single dummy count and forwards to the
histogram selection with NOCLIPPING, ignoring the passed bins, counts and
error method. -/
def symmetric_no_clipping_selection_min_max (bins : List ℚ) (counts : List ℤ) (p : ℕ)
    (n_bits : ℕ) (min_value max_value : ℚ) (constrained : Bool) (n_iter : ℕ)
    (min_threshold : ℚ) (quant_error_method : QuantizationErrorMethod) : Except String QParams :=
  symmetric_selection_histogram [min_value, max_value] [1] p n_bits min_value max_value
    constrained n_iter min_threshold QuantizationErrorMethod.NOCLIPPING

/-- Every element of a list is bounded by listMax. -/
theorem le_listMax {l : List ℚ} {v : ℚ} (hv : v ∈ l) : v ≤ listMax l := by
  induction l with
  | nil => simp at hv
  | cons a t ih =>
    rcases List.mem_cons.1 hv with rfl | hvt
    · exact le_max_left _ _
    · exact le_trans (ih hvt) (le_max_right _ _)

/-- listMax of a nonempty list of non-negative rationals is attained. -/
theorem listMax_mem_of_nonneg {l : List ℚ} (hne : l ≠ []) (hnn : ∀ v ∈ l, 0 ≤ v) :
    listMax l ∈ l := by
  induction l with
  | nil => exact absurd rfl hne
  | cons a t ih =>
    by_cases ht : t = []
    · subst ht
      have : listMax [a] = a := max_eq_left (hnn a (List.mem_singleton.2 rfl))
      rw [this]
      exact List.mem_singleton.2 rfl
    · have hmem := ih ht (fun v hv => hnn v (List.mem_cons_of_mem a hv))
      show max a (listMax t) ∈ a :: t
      rcases le_total a (listMax t) with h | h
      · rw [max_eq_right h]
        exact List.mem_cons_of_mem a hmem
      · rw [max_eq_left h]
        exact List.mem_cons_self a t

/-- Flattening commutes with the elementwise absolute value. -/
theorem tensor_abs_flatten (t : List (List ℚ)) :
    (tensor_abs t).flatten = t.flatten.map (fun x => |x|) := by
  induction t with
  | nil => simp [tensor_abs]
  | cons a r ih => simp [tensor_abs, List.map_append] at ih ⊢

/-- C2: for every tensor and min_threshold, the symmetric no-clipping
search with per_channel = False returns threshold equal to
max(min_threshold, max(abs(tensor))). -/
theorem C2_noclipping_symmetric_threshold (t : List (List ℚ)) (p n_bits channel_axis n_iter : ℕ)
    (min_threshold : ℚ) (h : t.flatten ≠ []) :
    ∃ m, m ∈ t.flatten.map (fun v => |v|) ∧ (∀ y ∈ t.flatten.map (fun v => |v|), y ≤ m) ∧
      symmetric_selection_tensor t p n_bits false channel_axis n_iter min_threshold
          QuantizationErrorMethod.NOCLIPPING =
        Except.ok ⟨QParamValue.scalar (max min_threshold m)⟩ := by
  refine ⟨listMax (t.flatten.map (fun v => |v|)), ?_, ?_, ?_⟩
  · apply listMax_mem_of_nonneg
    · simpa using h
    · intro v hv
      obtain ⟨w, _, rfl⟩ := List.mem_map.1 hv
      exact abs_nonneg w
  · intro y hy
    exact le_listMax hy
  · simp [symmetric_selection_tensor, get_init_threshold, get_tensor_max_flat,
      tensor_abs_flatten]

/-- C2 witness: the no-clipping threshold theorem applied to the concrete
tensor [[1, -3]] with min_threshold 1/2. -/
theorem C2_noclipping_symmetric_threshold_witness :
    ∃ m, m ∈ (([[1, -3]] : List (List ℚ)).flatten.map (fun v => |v|)) ∧
      (∀ y ∈ (([[1, -3]] : List (List ℚ)).flatten.map (fun v => |v|)), y ≤ m) ∧
      symmetric_selection_tensor [[1, -3]] 2 8 false 1 10 (1 / 2)
          QuantizationErrorMethod.NOCLIPPING =
        Except.ok ⟨QParamValue.scalar (max (1 / 2) m)⟩ :=
  C2_noclipping_symmetric_threshold [[1, -3]] 2 8 1 10 (1 / 2) (by simp)

/-- C10: symmetric_no_clipping_selection_min_max returns threshold
max(min_threshold, abs(max_value)) for every (min_value, max_value) pair,
because the first bin edge (min_value) is excluded from the histogram
maximum; min_value still determines the signedness flag of the two-edge
histogram. -/
theorem C10_min_max_excludes_min_edge (bins : List ℚ) (counts : List ℤ) (p n_bits n_iter : ℕ)
    (min_value max_value min_threshold : ℚ) (constrained : Bool)
    (quant_error_method : QuantizationErrorMethod) :
    symmetric_no_clipping_selection_min_max bins counts p n_bits min_value max_value
        constrained n_iter min_threshold quant_error_method =
      Except.ok ⟨QParamValue.scalar (max min_threshold |max_value|)⟩ ∧
    (histogram_signed [min_value, max_value] = true ↔ (min_value < 0 ∨ max_value < 0)) := by
  constructor
  · simp [symmetric_no_clipping_selection_min_max, symmetric_selection_histogram,
      select_positive_counts, listMax, get_init_threshold,
      max_eq_left (abs_nonneg max_value)]
  · simp [histogram_signed]

/-- C3: the signedness of the symmetric quantization grid is true exactly
when some input value (tensor entry, or histogram bin edge) is strictly
negative, and for every optimizing error method the per-channel search
uses one single signedness flag — characterized by the whole tensor, not
per channel — inside every channel's quantize call. -/
theorem C3_signedness_once_per_tensor (t : List (List ℚ)) (bins : List ℚ)
    (p n_bits channel_axis n_iter : ℕ) (min_threshold : ℚ)
    (quant_error_method : QuantizationErrorMethod) :
    (tensor_is_signed t = true ↔ ∃ v ∈ t.flatten, v < 0) ∧
    (histogram_signed bins = true ↔ ∃ b ∈ bins, b < 0) ∧
    (quant_error_method = QuantizationErrorMethod.MSE ∨
     quant_error_method = QuantizationErrorMethod.MAE ∨
     quant_error_method = QuantizationErrorMethod.LP ∨
     quant_error_method = QuantizationErrorMethod.KL →
      ∃ s : Bool, (s = true ↔ ∃ v ∈ t.flatten, v < 0) ∧
        ∃ sf : List ℚ → ℚ → ℚ × ℚ → OptimizeResult,
          (∀ x x0 bounds, ∃ ef, sf x x0 bounds =
            qparams_tensor_minimization x x0 ef
              (fun threshold => quantize_tensor x threshold n_bits s) bounds) ∧
          symmetric_selection_tensor t p n_bits true channel_axis n_iter min_threshold
              quant_error_method =
            Except.ok ⟨QParamValue.vector (symmetric_qparams_selection_per_channel_search t
              (get_tensor_max_per_channel (tensor_abs t)) channel_axis sf min_threshold)⟩) := by
  have hiff : tensor_is_signed t = true ↔ ∃ v ∈ t.flatten, v < 0 := by
    simp [tensor_is_signed, List.mem_flatten]
    tauto
  refine ⟨hiff, by simp [histogram_signed], ?_⟩
  intro hq
  refine ⟨tensor_is_signed t, hiff, ?_⟩
  rcases hq with rfl | rfl | rfl | rfl
  · exact ⟨_, fun x x0 bounds => ⟨_, rfl⟩, rfl⟩
  · exact ⟨_, fun x x0 bounds => ⟨_, rfl⟩, rfl⟩
  · exact ⟨_, fun x x0 bounds => ⟨_, rfl⟩, rfl⟩
  · exact ⟨_, fun x x0 bounds => ⟨_, rfl⟩, rfl⟩

/-- C3 witness: the signedness theorem applied to the concrete tensor
[[-1, 2]] with the MSE error method. -/
theorem C3_signedness_once_per_tensor_witness :
    ∃ s : Bool, (s = true ↔ ∃ v ∈ ([[-1, 2]] : List (List ℚ)).flatten, v < 0) ∧
      ∃ sf : List ℚ → ℚ → ℚ × ℚ → OptimizeResult,
        (∀ x x0 bounds, ∃ ef, sf x x0 bounds =
          qparams_tensor_minimization x x0 ef
            (fun threshold => quantize_tensor x threshold 8 s) bounds) ∧
        symmetric_selection_tensor [[-1, 2]] 2 8 true 1 10 (1 / 1000)
            QuantizationErrorMethod.MSE =
          Except.ok ⟨QParamValue.vector (symmetric_qparams_selection_per_channel_search [[-1, 2]]
            (get_tensor_max_per_channel (tensor_abs [[-1, 2]])) 1 sf (1 / 1000))⟩ :=
  (C3_signedness_once_per_tensor [[-1, 2]] [0] 2 8 1 10 (1 / 1000)
    QuantizationErrorMethod.MSE).2.2 (Or.inl rfl)

/-- Modelled from the spec: QuantizationConfig (quantization_config.py)
is not under src/; it carries the fields read by
set_node_quantization_config.py: the scheme and error-method tags for
weights and activations, the global enable flags, and the bit-widths. -/
structure QuantizationConfig where
  activation_quantization_method : QuantizationMethod
  weights_quantization_method : QuantizationMethod
  activation_threshold_method : QuantizationErrorMethod
  weights_threshold_method : QuantizationErrorMethod
  enable_activation_quantization : Bool
  enable_weights_quantization : Bool
  weights_n_bits : ℕ
  activation_n_bits : ℕ
deriving DecidableEq

/-- The configuration object passed to the orchestrator: either a plain
QuantizationConfig or a MixedPrecisionQuantizationConfig carrying the
declared list of weight bit-widths (mirrors the Python isinstance
test). -/
inductive QConfigInput where
  | plain (qc : QuantizationConfig)
  | mixedPrecision (qc : QuantizationConfig) (weights_n_bits_list : List ℕ)
deriving DecidableEq

/-- Underlying QuantizationConfig of either configuration object. -/
def QConfigInput.qc : QConfigInput → QuantizationConfig
  | .plain q => q
  | .mixedPrecision q _ => q

/-- Modelled from the spec: FrameworkInfo (framework_info.py) is not
under src/; per the spec it supplies the per-framework quantizer
mappings, the kernel channel axes and the capability predicates
in_activation_ops / in_kernel_ops (keyed here by the node type tag). -/
structure FrameworkInfo where
  activation_quantizer_mapping : QuantizationMethod → Option String
  weights_quantizer_mapping : QuantizationMethod → Option String
  kernel_channels_mapping : String → ℕ × ℕ
  activation_ops_pred : String → Bool
  kernel_ops_pred : String → Bool

/-- Modelled from the spec: NodeActivationQuantizationConfig
(node_quantization_config.py) is not under src/; per the spec a node
candidate is a (bit-width, parameters fn, enabled-flag) record; the
enabled flag defaults to true and is overwritten by the orchestrator. -/
structure NodeActivationQuantizationConfig where
  activation_quantization_method : QuantizationMethod
  activation_n_bits : ℕ
  activation_quantization_fn : String
  activation_quantization_params_fn : Option ParamsFn
  enable_activation_quantization : Bool
deriving DecidableEq

/-- Modelled from the spec: NodeWeightsQuantizationConfig
(node_quantization_config.py) is not under src/; the per-candidate weight
quantization record with its bit-width and channel axis. -/
structure NodeWeightsQuantizationConfig where
  weights_quantization_method : QuantizationMethod
  weights_n_bits : ℕ
  weights_quantization_fn : String
  weights_quantization_params_fn : Option ParamsFn
  weight_channel_axis : ℕ
  enable_weights_quantization : Bool
deriving DecidableEq

/-- Embedding of create_node_activation_qc
(set_node_quantization_config.py, lines 86-109): Logger.critical on an
unknown activation quantizer, then the params-fn dispatch, then the
record. -/
def create_node_activation_qc (qc : QuantizationConfig) (fw_info : FrameworkInfo) :
    Except String NodeActivationQuantizationConfig :=
  match fw_info.activation_quantizer_mapping qc.activation_quantization_method with
  | none => Except.error ("Unknown quantization method for activations")
  | some activation_quantization_fn =>
    match get_activation_quantization_params_fn qc.activation_quantization_method
        qc.activation_threshold_method with
    | .error s => Except.error s
    | .ok activation_quantization_params_fn =>
      Except.ok ⟨qc.activation_quantization_method, qc.activation_n_bits,
        activation_quantization_fn, activation_quantization_params_fn, true⟩

/-- Embedding of create_node_weights_qc
(set_node_quantization_config.py, lines 112-139). -/
def create_node_weights_qc (qc : QuantizationConfig) (fw_info : FrameworkInfo)
    (weight_channel_axis : ℕ) : Except String NodeWeightsQuantizationConfig :=
  match fw_info.weights_quantizer_mapping qc.weights_quantization_method with
  | none => Except.error ("Unknown quantization method for weights")
  | some weights_quantization_fn =>
    match get_weights_quantization_params_fn qc.weights_quantization_method
        qc.weights_threshold_method with
    | .error s => Except.error s
    | .ok weights_quantization_params_fn =>
      Except.ok ⟨qc.weights_quantization_method, qc.weights_n_bits,
        weights_quantization_fn, weights_quantization_params_fn, weight_channel_axis, true⟩

/-- Embedding of _create_node_candidates_weights_qc
(set_node_quantization_config.py, lines 142-167): in the mixed-precision
case the declared bit-widths are sorted descending (list.sort with
reverse=True) and one candidate is created per entry, each from a copy of
the config with that bit-width; otherwise a single candidate. -/
def create_node_candidates_weights_qc (quant_config : QConfigInput) (fw_info : FrameworkInfo)
    (weight_channel_axis : ℕ) : Except String (List NodeWeightsQuantizationConfig) :=
  match quant_config with
  | .mixedPrecision qc weights_n_bits_list =>
    (List.insertionSort (fun a b => a ≥ b) weights_n_bits_list).mapM
      (fun nbits => create_node_weights_qc {qc with weights_n_bits := nbits} fw_info
        weight_channel_axis)
  | .plain qc =>
    match create_node_weights_qc qc fw_info weight_channel_axis with
    | .error s => Except.error s
    | .ok c => Except.ok [c]

/-- Node of the internal graph: its framework type tag and the two
configuration slots the orchestrator fills in. -/
structure NodeRecord where
  type : String
  activation_quantization_cfg : Option NodeActivationQuantizationConfig
  candidates_weights_quantization_cfg : Option (List NodeWeightsQuantizationConfig)
deriving DecidableEq

instance : Inhabited NodeRecord := ⟨⟨"", none, none⟩⟩

/-- Embedding of set_quantization_configs_to_node
(set_node_quantization_config.py, lines 56-83): attach the activation
config, AND the global enable flag with the capability predicates, build
the weight candidates with the node's channel axis, and set the weight
enable flag on every candidate. -/
def set_quantization_configs_to_node (node : NodeRecord) (quant_config : QConfigInput)
    (fw_info : FrameworkInfo) : Except String NodeRecord :=
  match create_node_activation_qc quant_config.qc fw_info with
  | .error s => Except.error s
  | .ok acfg =>
    let enable_activation_quantization := quant_config.qc.enable_activation_quantization &&
      (fw_info.activation_ops_pred node.type || fw_info.kernel_ops_pred node.type)
    let acfg2 := {acfg with enable_activation_quantization := enable_activation_quantization}
    let weight_channel_axis := (fw_info.kernel_channels_mapping node.type).1
    match create_node_candidates_weights_qc quant_config fw_info weight_channel_axis with
    | .error s => Except.error s
    | .ok cands =>
      let enable_weights_quantization := quant_config.qc.enable_weights_quantization &&
        fw_info.kernel_ops_pred node.type
      let cands2 := cands.map (fun c =>
        {c with enable_weights_quantization := enable_weights_quantization})
      Except.ok { node with
        activation_quantization_cfg := some acfg2
        candidates_weights_quantization_cfg := some cands2 }

/-- Graph handle: the ids of its nodes in the node store.  Python node
objects are mutable and aliased, so the heap is modelled explicitly: a
store of node records addressed by id. -/
structure Graph where
  nodeIds : List ℕ
deriving DecidableEq

/-- The for-loop of set_quantization_configuration_to_graph: mutate each
listed node in the store in order, stopping at the first error. -/
def process_nodes (quant_config : QConfigInput) (fw_info : FrameworkInfo) :
    List ℕ → List NodeRecord → Except String (List NodeRecord)
  | [], store => Except.ok store
  | i :: rest, store =>
    match set_quantization_configs_to_node (store.getD i default) quant_config fw_info with
    | .error s => Except.error s
    | .ok n2 => process_nodes quant_config fw_info rest (store.set i n2)

/-- Embedding of set_quantization_configuration_to_graph
(set_node_quantization_config.py, lines 32-53): copy.deepcopy(graph)
allocates fresh node records at fresh ids (appended to the store), the
loop mutates only those fresh nodes, and the copy is returned. -/
def set_quantization_configuration_to_graph (graph : Graph) (store : List NodeRecord)
    (quant_config : QConfigInput) (fw_info : FrameworkInfo) :
    Except String (Graph × List NodeRecord) :=
  let base := store.length
  let copied := store ++ graph.nodeIds.map (fun i => store.getD i default)
  let new_ids := (List.range graph.nodeIds.length).map (fun k => base + k)
  match process_nodes quant_config fw_info new_ids copied with
  | .error s => Except.error s
  | .ok final => Except.ok (⟨new_ids⟩, final)

/-- Concrete quantization configuration used by the concrete-input
theorems. -/
def sampleQC : QuantizationConfig :=
  ⟨QuantizationMethod.POWER_OF_TWO, QuantizationMethod.SYMMETRIC,
   QuantizationErrorMethod.MSE, QuantizationErrorMethod.MSE, true, true, 8, 8⟩

/-- Concrete framework info used by the concrete-input theorems. -/
def sampleFW : FrameworkInfo :=
  ⟨fun _ => some "activation_quantizer", fun _ => some "weights_quantizer",
   fun _ => (0, 1), fun _ => true, fun _ => true⟩

/-- Concrete one-node store used by the concrete-input theorems. -/
def sampleStore : List NodeRecord := [⟨"Conv2D", none, none⟩]

/-- C8 counterexample: with the duplicate declared bit-width list [8, 8]
the orchestrator produces two candidates with the same bit-width 8, so
the candidate list is not strictly descending and the duplicated declared
bit-width has two candidates rather than exactly one. -/
theorem C8_candidates_counterexample :
    (create_node_candidates_weights_qc (QConfigInput.mixedPrecision sampleQC [8, 8]) sampleFW 0).map
        (fun l => l.map (fun c => c.weights_n_bits)) = Except.ok [8, 8] ∧
    ¬ List.Sorted (fun a b => a > b) ([8, 8] : List ℕ) := by
  constructor
  · rfl
  · decide

/-- C8 (amended): in the mixed-precision case the candidate list holds
exactly one candidate per entry of the declared bit-width list, ordered
by descending bit-width — strictly descending whenever the declared
bit-widths are distinct, only non-strictly when duplicates are declared;
a non-mixed-precision configuration produces exactly one candidate. -/
theorem C8_candidates_per_declared_entry (qc : QuantizationConfig) (fw_info : FrameworkInfo)
    (weight_channel_axis : ℕ) (bits : List ℕ) (fn : String) (r : Option ParamsFn)
    (hfn : fw_info.weights_quantizer_mapping qc.weights_quantization_method = some fn)
    (hpm : get_weights_quantization_params_fn qc.weights_quantization_method
      qc.weights_threshold_method = Except.ok r) :
    (∃ cands, create_node_candidates_weights_qc (QConfigInput.mixedPrecision qc bits) fw_info
        weight_channel_axis = Except.ok cands ∧
      (cands.map (fun c => c.weights_n_bits)).Perm bits ∧
      (cands.map (fun c => c.weights_n_bits)).Sorted (fun a b => a ≥ b) ∧
      (bits.Nodup → (cands.map (fun c => c.weights_n_bits)).Sorted (fun a b => a > b))) ∧
    (∃ c, create_node_candidates_weights_qc (QConfigInput.plain qc) fw_info
        weight_channel_axis = Except.ok [c]) := by
  have hone : ∀ nbits : ℕ, create_node_weights_qc { qc with weights_n_bits := nbits } fw_info
      weight_channel_axis = Except.ok ⟨qc.weights_quantization_method, nbits, fn, r,
        weight_channel_axis, true⟩ := by
    intro nbits
    simp [create_node_weights_qc, hfn, hpm]
  have hmapM : ∀ l : List ℕ,
      (l.mapM (fun nbits => create_node_weights_qc { qc with weights_n_bits := nbits } fw_info
        weight_channel_axis)) =
      Except.ok (l.map (fun nbits => (⟨qc.weights_quantization_method, nbits, fn, r,
        weight_channel_axis, true⟩ : NodeWeightsQuantizationConfig))) := by
    intro l
    induction l with
    | nil => rfl
    | cons a t ih =>
      rw [List.mapM_cons, hone, ih]
      rfl
  constructor
  · refine ⟨(List.insertionSort (fun a b => a ≥ b) bits).map
      (fun nbits => ⟨qc.weights_quantization_method, nbits, fn, r, weight_channel_axis, true⟩),
      ?_, ?_, ?_, ?_⟩
    · show (List.insertionSort (fun a b => a ≥ b) bits).mapM _ = _
      exact hmapM _
    · rw [List.map_map]
      have : ((fun c : NodeWeightsQuantizationConfig => c.weights_n_bits) ∘
          (fun nbits => (⟨qc.weights_quantization_method, nbits, fn, r, weight_channel_axis,
            true⟩ : NodeWeightsQuantizationConfig))) = id := rfl
      rw [this, List.map_id]
      exact List.perm_insertionSort _ bits
    · rw [List.map_map]
      have : ((fun c : NodeWeightsQuantizationConfig => c.weights_n_bits) ∘
          (fun nbits => (⟨qc.weights_quantization_method, nbits, fn, r, weight_channel_axis,
            true⟩ : NodeWeightsQuantizationConfig))) = id := rfl
      rw [this, List.map_id]
      exact List.sorted_insertionSort _ bits
    · intro hnd
      rw [List.map_map]
      have : ((fun c : NodeWeightsQuantizationConfig => c.weights_n_bits) ∘
          (fun nbits => (⟨qc.weights_quantization_method, nbits, fn, r, weight_channel_axis,
            true⟩ : NodeWeightsQuantizationConfig))) = id := rfl
      rw [this, List.map_id]
      exact List.Sorted.gt_of_ge (List.sorted_insertionSort _ bits)
        (((List.perm_insertionSort _ bits).nodup_iff).2 hnd)
  · refine ⟨⟨qc.weights_quantization_method, qc.weights_n_bits, fn, r, weight_channel_axis,
      true⟩, ?_⟩
    simp [create_node_candidates_weights_qc, create_node_weights_qc, hfn, hpm]

/-- C8 witness: the amended candidate theorem applied to the concrete
configuration with declared bit-widths [4, 8]. -/
theorem C8_candidates_witness :
    (∃ cands, create_node_candidates_weights_qc (QConfigInput.mixedPrecision sampleQC [4, 8])
        sampleFW 0 = Except.ok cands ∧
      (cands.map (fun c => c.weights_n_bits)).Perm [4, 8] ∧
      (cands.map (fun c => c.weights_n_bits)).Sorted (fun a b => a ≥ b) ∧
      (([4, 8] : List ℕ).Nodup →
        (cands.map (fun c => c.weights_n_bits)).Sorted (fun a b => a > b))) ∧
    (∃ c, create_node_candidates_weights_qc (QConfigInput.plain sampleQC) sampleFW 0 =
      Except.ok [c]) :=
  C8_candidates_per_declared_entry sampleQC sampleFW 0 [4, 8] "weights_quantizer"
    (some ParamsFn.symmetric_selection_tensor) rfl rfl

/-- getD is unchanged at positions other than the one being set. -/
theorem getD_set_ne {α : Type} [Inhabited α] (l : List α) (i j : ℕ) (a : α) (h : i ≠ j) :
    (l.set i a).getD j default = l.getD j default := by
  simp [List.getD_eq_getElem?_getD, List.getElem?_set_ne h]

/-- The node-processing loop never changes store entries below the least
processed id. -/
theorem process_nodes_frame (quant_config : QConfigInput) (fw_info : FrameworkInfo)
    (ids : List ℕ) (base : ℕ) (hids : ∀ i ∈ ids, base ≤ i) :
    ∀ s s' : List NodeRecord, process_nodes quant_config fw_info ids s = Except.ok s' →
      ∀ j, j < base → s'.getD j default = s.getD j default := by
  induction ids with
  | nil =>
    intro s s' h j hj
    simp only [process_nodes] at h
    cases h
    rfl
  | cons i rest ih =>
    intro s s' h j hj
    simp only [process_nodes] at h
    cases hm : set_quantization_configs_to_node (s.getD i default) quant_config fw_info with
    | error e => rw [hm] at h; cases h
    | ok n2 =>
      rw [hm] at h
      have hrest := ih (fun x hx => hids x (List.mem_cons_of_mem i hx)) (s.set i n2) s' h j hj
      rw [hrest]
      apply getD_set_ne
      have hbi : base ≤ i := hids i (List.mem_cons_self i rest)
      exact fun hij => absurd (hij ▸ hbi) (Nat.not_le.2 hj)

/-- getD at the position just set returns the new value (in-bounds). -/
theorem getD_set_self {α : Type} [Inhabited α] (l : List α) (i : ℕ) (a : α)
    (h : i < l.length) : (l.set i a).getD i default = a := by
  simp [List.getD_eq_getElem?_getD, List.getElem?_set_eq_of_lt a h]

/-- The node-processing loop never changes store entries at unprocessed
ids. -/
theorem process_nodes_frame_not_mem (quant_config : QConfigInput) (fw_info : FrameworkInfo) :
    ∀ (ids : List ℕ) (s s' : List NodeRecord),
      process_nodes quant_config fw_info ids s = Except.ok s' →
      ∀ j, j ∉ ids → s'.getD j default = s.getD j default := by
  intro ids
  induction ids with
  | nil =>
    intro s s' h j _
    simp only [process_nodes] at h
    cases h
    rfl
  | cons i rest ih =>
    intro s s' h j hj
    simp only [process_nodes] at h
    cases hm : set_quantization_configs_to_node (s.getD i default) quant_config fw_info with
    | error e => rw [hm] at h; cases h
    | ok n2 =>
      rw [hm] at h
      rw [ih (s.set i n2) s' h j (fun hx => hj (List.mem_cons_of_mem i hx))]
      exact getD_set_ne s i j n2 (fun hij => hj (hij ▸ List.mem_cons_self i rest))

/-- The node-processing loop preserves the store length. -/
theorem process_nodes_length (quant_config : QConfigInput) (fw_info : FrameworkInfo) :
    ∀ (ids : List ℕ) (s s' : List NodeRecord),
      process_nodes quant_config fw_info ids s = Except.ok s' → s'.length = s.length := by
  intro ids
  induction ids with
  | nil =>
    intro s s' h
    simp only [process_nodes] at h
    cases h
    rfl
  | cons i rest ih =>
    intro s s' h
    simp only [process_nodes] at h
    cases hm : set_quantization_configs_to_node (s.getD i default) quant_config fw_info with
    | error e => rw [hm] at h; cases h
    | ok n2 =>
      rw [hm] at h
      rw [ih (s.set i n2) s' h]
      exact List.length_set s i n2

/-- A successful set_quantization_configs_to_node call fills both
configuration slots of the node. -/
theorem set_node_configs_attached (node : NodeRecord) (quant_config : QConfigInput)
    (fw_info : FrameworkInfo) (n2 : NodeRecord)
    (h : set_quantization_configs_to_node node quant_config fw_info = Except.ok n2) :
    n2.activation_quantization_cfg.isSome = true ∧
    n2.candidates_weights_quantization_cfg.isSome = true := by
  unfold set_quantization_configs_to_node at h
  cases hA : create_node_activation_qc quant_config.qc fw_info with
  | error s => rw [hA] at h; simp at h
  | ok acfg =>
    rw [hA] at h
    dsimp only at h
    cases hW : create_node_candidates_weights_qc quant_config fw_info
        ((fw_info.kernel_channels_mapping node.type).1) with
    | error s => rw [hW] at h; simp at h
    | ok cands =>
      rw [hW] at h
      simp only [Except.ok.injEq] at h
      rw [← h]
      exact ⟨rfl, rfl⟩

/-- Every processed node of the store ends with both configuration slots
attached, provided the processed ids are distinct and in bounds. -/
theorem process_nodes_attaches (quant_config : QConfigInput) (fw_info : FrameworkInfo) :
    ∀ (ids : List ℕ) (s s' : List NodeRecord), ids.Nodup → (∀ i ∈ ids, i < s.length) →
      process_nodes quant_config fw_info ids s = Except.ok s' →
      ∀ i ∈ ids, (s'.getD i default).activation_quantization_cfg.isSome = true ∧
        (s'.getD i default).candidates_weights_quantization_cfg.isSome = true := by
  intro ids
  induction ids with
  | nil =>
    intro s s' _ _ _ i hi
    simp at hi
  | cons i rest ih =>
    intro s s' hnd hbound h x hx
    simp only [process_nodes] at h
    cases hm : set_quantization_configs_to_node (s.getD i default) quant_config fw_info with
    | error e => rw [hm] at h; cases h
    | ok n2 =>
      rw [hm] at h
      rcases List.mem_cons.1 hx with rfl | hxt
      · have hfr := process_nodes_frame_not_mem quant_config fw_info rest (s.set x n2) s' h x
          (List.nodup_cons.1 hnd).1
        rw [hfr, getD_set_self s x n2 (hbound x (List.mem_cons_self x rest))]
        exact set_node_configs_attached _ _ _ _ hm
      · exact ih (s.set i n2) s' (List.nodup_cons.1 hnd).2
          (fun y hy => by rw [List.length_set]; exact hbound y (List.mem_cons_of_mem i hy))
          h x hxt

/-- C9: set_quantization_configuration_to_graph works on a deep copy:
for every well-formed input graph, the returned graph consists of fresh
node ids disjoint from the input graph's ids (one per input node), the
configurations are attached to those fresh copies, and every node record
of the input graph is unchanged in the final store. -/
theorem C9_graph_copy_frame (graph : Graph) (store : List NodeRecord)
    (quant_config : QConfigInput) (fw_info : FrameworkInfo)
    (hwf : ∀ i ∈ graph.nodeIds, i < store.length) :
    ∀ g2 store2, set_quantization_configuration_to_graph graph store quant_config fw_info =
        Except.ok (g2, store2) →
      (∀ i ∈ graph.nodeIds, store2.getD i default = store.getD i default) ∧
      (∀ j ∈ g2.nodeIds, j ∉ graph.nodeIds) ∧
      g2.nodeIds.length = graph.nodeIds.length ∧
      (∀ j ∈ g2.nodeIds,
        (store2.getD j default).activation_quantization_cfg.isSome = true ∧
        (store2.getD j default).candidates_weights_quantization_cfg.isSome = true) := by
  intro g2 store2 h
  simp only [set_quantization_configuration_to_graph] at h
  cases hp : process_nodes quant_config fw_info
      ((List.range graph.nodeIds.length).map (fun k => store.length + k))
      (store ++ graph.nodeIds.map (fun i => store.getD i default)) with
  | error e => rw [hp] at h; cases h
  | ok final =>
    rw [hp] at h
    have hpair := Except.ok.inj h
    have hg2 : g2 = ⟨(List.range graph.nodeIds.length).map (fun k => store.length + k)⟩ :=
      (congrArg Prod.fst hpair).symm
    have hs2 : store2 = final := (congrArg Prod.snd hpair).symm
    subst hg2
    subst hs2
    have hids : ∀ i ∈ (List.range graph.nodeIds.length).map (fun k => store.length + k),
        store.length ≤ i := by
      intro i hi
      obtain ⟨k, _, rfl⟩ := List.mem_map.1 hi
      exact Nat.le_add_right _ _
    refine ⟨?_, ?_, by simp, ?_⟩
    · intro i hi
      have hib : i < store.length := hwf i hi
      rw [process_nodes_frame quant_config fw_info _ store.length hids _ _ hp i hib]
      exact List.getD_append _ _ _ _ hib
    · intro j hj
      obtain ⟨k, _, rfl⟩ := List.mem_map.1 hj
      intro hmem
      exact absurd (hwf _ hmem) (Nat.not_lt.2 (Nat.le_add_right _ _))
    · have hnd : ((List.range graph.nodeIds.length).map (fun k => store.length + k)).Nodup :=
        (List.nodup_range graph.nodeIds.length).map
          (fun a b hab => Nat.add_left_cancel hab)
      have hbd : ∀ i ∈ (List.range graph.nodeIds.length).map (fun k => store.length + k),
          i < (store ++ graph.nodeIds.map (fun i => store.getD i default)).length := by
        intro i hi
        obtain ⟨k, hk, rfl⟩ := List.mem_map.1 hi
        have hk' : k < graph.nodeIds.length := List.mem_range.1 hk
        simp only [List.length_append, List.length_map]
        omega
      exact process_nodes_attaches quant_config fw_info _ _ _ hnd hbd hp

/-- C9 witness: the frame theorem applied to a concrete one-node graph,
with the configuration run succeeding end to end. -/
theorem C9_graph_copy_frame_witness :
    ∃ g2 store2, set_quantization_configuration_to_graph ⟨[0]⟩ sampleStore
        (QConfigInput.plain sampleQC) sampleFW = Except.ok (g2, store2) ∧
      (∀ i ∈ (⟨[0]⟩ : Graph).nodeIds, store2.getD i default = sampleStore.getD i default) ∧
      (∀ j ∈ g2.nodeIds, j ∉ (⟨[0]⟩ : Graph).nodeIds) ∧
      g2.nodeIds.length = (⟨[0]⟩ : Graph).nodeIds.length ∧
      (∀ j ∈ g2.nodeIds,
        (store2.getD j default).activation_quantization_cfg.isSome = true ∧
        (store2.getD j default).candidates_weights_quantization_cfg.isSome = true) := by
  obtain ⟨g2, store2, hok⟩ : ∃ g2 store2, set_quantization_configuration_to_graph ⟨[0]⟩
      sampleStore (QConfigInput.plain sampleQC) sampleFW = Except.ok (g2, store2) :=
    ⟨_, _, rfl⟩
  have h := C9_graph_copy_frame ⟨[0]⟩ sampleStore (QConfigInput.plain sampleQC) sampleFW
    (by simp [sampleStore]) g2 store2 hok
  exact ⟨g2, store2, hok, h.1, h.2.1, h.2.2.1, h.2.2.2⟩

end MCT
